import Mathlib

/-!
The JNI bridge of yamms_core to FFTW3 (`src/jni_fftw3`).

A shallow embedding of `uni_hamburg_yamms_math_fft_FFT_fftw3Impl.cpp` and `settings.h`.

The bridge is effectful glue code, so the embedding threads an explicit `World` through every
function: the native memory (`Store`), and the `trace` of JNI buffer calls and native FFTW calls
issued so far.  The FFTW library and the JVM are not part of the repository; they are parameters
(`Fftw`, `JNIEnv`) whose answers may depend on the whole history of the world.
-/

namespace Yamms

/-! ## `settings.h` -/

/-- Build configuration: which of the optional defines of `settings.h` are active. -/
structure Settings where
  USE_FFTW_THREADS : Bool
  USE_GET_PRIMITIVE_ARRAY_CRITIAL : Bool
deriving DecidableEq

/-- The configuration `settings.h` ships: both optional defines are commented out. -/
def settings_h : Settings :=
  { USE_FFTW_THREADS := false, USE_GET_PRIMITIVE_ARRAY_CRITIAL := false }

/-- Constant `#define MAX_RANK 8`: maximum number of accepted transform/loop dimensions. -/
def MAX_RANK : Nat := 8

/-! ## Constants of the external headers `fftw3.h` and `jni.h` -/

/-- Sign of the forward transform, `#define FFTW_FORWARD (-1)` in fftw3.h. -/
def FFTW_FORWARD : Int := -1

/-- Sign of the backward transform, `#define FFTW_BACKWARD (+1)` in fftw3.h. -/
def FFTW_BACKWARD : Int := 1

/-- Release mode `JNI_COMMIT` of jni.h: copy back, keep the buffer. -/
def JNI_COMMIT : Int := 1

/-- Release mode `JNI_ABORT` of jni.h: free the buffer without copying back. -/
def JNI_ABORT : Int := 2

/-- The four mode constants of the javah-generated header
`uni_hamburg_yamms_math_fft_FFT_fftw3Impl.h`.  The header is not among the sources, so the values
are a parameter of the embedding. -/
structure uni_hamburg_yamms_math_fft_FFT_fftw3Impl where
  MODE_C2C_FORW : Int
  MODE_C2C_BACKW : Int
  MODE_R2C : Int
  MODE_C2R : Int
deriving DecidableEq

/-- The four case labels are pairwise different (a C++ `switch` does not compile otherwise). -/
def uni_hamburg_yamms_math_fft_FFT_fftw3Impl.distinct
    (hdr : uni_hamburg_yamms_math_fft_FFT_fftw3Impl) : Prop :=
  hdr.MODE_C2C_FORW ≠ hdr.MODE_C2C_BACKW ∧ hdr.MODE_C2C_FORW ≠ hdr.MODE_R2C ∧
  hdr.MODE_C2C_FORW ≠ hdr.MODE_C2R ∧ hdr.MODE_C2C_BACKW ≠ hdr.MODE_R2C ∧
  hdr.MODE_C2C_BACKW ≠ hdr.MODE_C2R ∧ hdr.MODE_R2C ≠ hdr.MODE_C2R

instance (hdr : uni_hamburg_yamms_math_fft_FFT_fftw3Impl) : Decidable hdr.distinct := by
  unfold uni_hamburg_yamms_math_fft_FFT_fftw3Impl.distinct
  infer_instance

/-- The mode is one of the four enumerated constants. -/
def uni_hamburg_yamms_math_fft_FFT_fftw3Impl.enumerated
    (hdr : uni_hamburg_yamms_math_fft_FFT_fftw3Impl) (mode : Int) : Prop :=
  mode = hdr.MODE_C2C_FORW ∨ mode = hdr.MODE_C2C_BACKW ∨ mode = hdr.MODE_R2C ∨ mode = hdr.MODE_C2R

instance (hdr : uni_hamburg_yamms_math_fft_FFT_fftw3Impl) (mode : Int) :
    Decidable (hdr.enumerated mode) := by
  unfold uni_hamburg_yamms_math_fft_FFT_fftw3Impl.enumerated
  infer_instance

/-! ## Data model -/

/-- A Java `int`. -/
abbrev jint := Int

/-- A Java `long` (64 bit, signed). -/
abbrev jlong := Int

/-- A Java `double`, kept as its 64-bit pattern: the bridge never computes with one. -/
abbrev jdouble := Nat

/-- A reference to a Java `double[]`. -/
abbrev jdoubleArray := Nat

/-- A Java object as the bridge sees it: its `int` fields, looked up by field id. -/
structure jobject where
  GetIntField : String → jint

/-- JNI `GetFieldID(cls, name, sig)`: the id of a field is modelled by its name. -/
def GetFieldID (name : String) (_sig : String) : String := name

/-- The native strided-dimension record `fftw_iodim` of fftw3.h. -/
structure fftw_iodim where
  n : Int
  is : Int
  os : Int
deriving DecidableEq

/-- A native array of `fftw_iodim`; `none` is a cell that was never written (indeterminate). -/
abbrev IodimArray := List (Option fftw_iodim)

/-- A native plan pointer `fftw_plan`, as its address: a number below `2 ^ 64`, `0` being the
null pointer. -/
abbrev fftw_plan := Nat

/-- An address of a block of doubles handed out by the JVM: the storage of the Java array itself
(a pinned array) or a copy the JVM allocated. -/
inductive Ptr where
  | pinned (array : jdoubleArray)
  | copy (k : Nat)
deriving DecidableEq

/-- Native memory: the doubles found behind each address.  `store (Ptr.pinned a)` is the content
of the Java array `a`. -/
abbrev Store := Ptr → List jdouble

/-- The buffer calls made on the JVM and the calls made on the FFTW library. -/
inductive Event where
  | GetDoubleArrayElements (array : jdoubleArray) (elems : Ptr)
  | GetPrimitiveArrayCritical (array : jdoubleArray) (carray : Ptr)
  | ReleaseDoubleArrayElements (array : jdoubleArray) (elems : Ptr) (mode : Int)
  | ReleasePrimitiveArrayCritical (array : jdoubleArray) (carray : Ptr) (mode : Int)
  | fftw_plan_guru_dft (rank : Int) (dims : IodimArray) (howmany_rank : Int)
      (howmany_dims : IodimArray) (in_ out : Ptr) (sign : Int) (flags : Int)
  | fftw_execute_dft (p : fftw_plan) (in_ out : Ptr)
  | fftw_execute_dft_r2c (p : fftw_plan) (in_ out : Ptr)
  | fftw_execute_dft_c2r (p : fftw_plan) (in_ out : Ptr)
  | fftw_destroy_plan (p : fftw_plan)
  | fftw_plan_with_nthreads (nthreads : Int)
  | fftw_init_threads
deriving DecidableEq

/-- The state the bridge acts on. -/
structure World where
  store : Store
  nextCopy : Nat
  trace : List Event

/-- The JVM: for each buffer request it decides whether to hand out a copy or to pin. -/
structure JNIEnv where
  isCopy : World → jdoubleArray → Bool

/-- The FFTW library.  Every function sees the world it is called in (so its answer may depend on
all earlier calls) and the functions that touch memory return the memory they leave behind. -/
structure Fftw where
  fftw_plan_guru_dft : World → Int → IodimArray → Int → IodimArray → Ptr → Ptr → Int → Int →
    fftw_plan × Store
  fftw_execute_dft : World → fftw_plan → Ptr → Ptr → Store
  fftw_execute_dft_r2c : World → fftw_plan → Ptr → Ptr → Store
  fftw_execute_dft_c2r : World → fftw_plan → Ptr → Ptr → Store
  fftw_init_threads : World → Int

/-- Undefined behaviour, at which the embedding stops.
`write_past_end index capacity`: a write through `&dims[index]` into a native array of `capacity`
records with `capacity ≤ index`.
`missing_return dims`: control reaches the closing brace of a function declared to return a value
(`static int get_iodim`) that has no `return` statement; `dims` is the native array as the writes
made before that point left it. -/
inductive Fault where
  | write_past_end (index capacity : Nat)
  | missing_return (dims : IodimArray)
deriving DecidableEq

/-- Classifies the events that are calls into the FFTW library. -/
def Event.isFftw : Event → Bool
  | .fftw_plan_guru_dft .. => true
  | .fftw_execute_dft .. => true
  | .fftw_execute_dft_r2c .. => true
  | .fftw_execute_dft_c2r .. => true
  | .fftw_destroy_plan .. => true
  | .fftw_plan_with_nthreads .. => true
  | .fftw_init_threads => true
  | _ => false

/-- One step of the bookkeeping of the buffer views that are held. -/
def Event.held (views : List (jdoubleArray × Ptr)) : Event → List (jdoubleArray × Ptr)
  | .GetDoubleArrayElements a p => (a, p) :: views
  | .GetPrimitiveArrayCritical a p => (a, p) :: views
  | .ReleaseDoubleArrayElements a p mode => if mode = JNI_COMMIT then views else views.erase (a, p)
  | .ReleasePrimitiveArrayCritical a p mode =>
      if mode = JNI_COMMIT then views else views.erase (a, p)
  | _ => views

/-- The buffer views still held after a sequence of events. -/
def heldViews (t : List Event) : List (jdoubleArray × Ptr) :=
  t.foldl Event.held []

/-! ## Pointer casts -/

/-- The cast `(long)plan` of a pointer to the signed 64-bit `long`/`jlong` (LP64: `long` has the
64 bits of the pointer). -/
def long_of_plan (plan : Nat) : Int :=
  if plan % 2 ^ 64 < 2 ^ 63 then ((plan % 2 ^ 64 : Nat) : Int)
  else ((plan % 2 ^ 64 : Nat) : Int) - 2 ^ 64

/-- The cast `(fftw_plan)j_plan` of a `jlong`. -/
def plan_of_long (j_plan : Int) : Nat :=
  (j_plan % 2 ^ 64).toNat

/-! ## JNI buffer access -/

/-- Shared behaviour of the two ways to obtain the elements of a Java array: the JVM either hands
out a fresh copy of the content or the address of the array itself. -/
def JNIEnv.acquire (env : JNIEnv) (w : World) (array : jdoubleArray)
    (ev : jdoubleArray → Ptr → Event) : Ptr × World :=
  if env.isCopy w array then
    (Ptr.copy w.nextCopy,
      { store := Function.update w.store (Ptr.copy w.nextCopy) (w.store (Ptr.pinned array)),
        nextCopy := w.nextCopy + 1,
        trace := w.trace ++ [ev array (Ptr.copy w.nextCopy)] })
  else
    (Ptr.pinned array, { w with trace := w.trace ++ [ev array (Ptr.pinned array)] })

/-- Shared behaviour of the two release calls: for a copy, modes `0` and `JNI_COMMIT` copy the
content back into the Java array, `JNI_ABORT` does not; for a pinned array there is nothing to
copy. -/
def JNIEnv.release (w : World) (array : jdoubleArray) (elems : Ptr) (mode : Int)
    (ev : Event) : World :=
  match elems with
  | Ptr.pinned _ => { w with trace := w.trace ++ [ev] }
  | Ptr.copy _ =>
    if mode = JNI_ABORT then { w with trace := w.trace ++ [ev] }
    else
      { w with
        store := Function.update w.store (Ptr.pinned array) (w.store elems),
        trace := w.trace ++ [ev] }

/-- JNI `GetDoubleArrayElements`. -/
def JNIEnv.GetDoubleArrayElements (env : JNIEnv) (w : World) (array : jdoubleArray) :
    Ptr × World :=
  env.acquire w array Event.GetDoubleArrayElements

/-- JNI `GetPrimitiveArrayCritical`. -/
def JNIEnv.GetPrimitiveArrayCritical (env : JNIEnv) (w : World) (array : jdoubleArray) :
    Ptr × World :=
  env.acquire w array Event.GetPrimitiveArrayCritical

/-- JNI `ReleaseDoubleArrayElements`. -/
def JNIEnv.ReleaseDoubleArrayElements (w : World) (array : jdoubleArray) (elems : Ptr)
    (mode : Int) : World :=
  JNIEnv.release w array elems mode (Event.ReleaseDoubleArrayElements array elems mode)

/-- JNI `ReleasePrimitiveArrayCritical`. -/
def JNIEnv.ReleasePrimitiveArrayCritical (w : World) (array : jdoubleArray) (carray : Ptr)
    (mode : Int) : World :=
  JNIEnv.release w array carray mode (Event.ReleasePrimitiveArrayCritical array carray mode)

/-- The block `// lock arrays` of both entry points: `in` is obtained first, then `out`. -/
def lock_arrays (cfg : Settings) (env : JNIEnv) (w : World) (j_in j_out : jdoubleArray) :
    Ptr × Ptr × World :=
  if cfg.USE_GET_PRIMITIVE_ARRAY_CRITIAL then
    let r_in := env.GetPrimitiveArrayCritical w j_in
    let r_out := env.GetPrimitiveArrayCritical r_in.2 j_out
    (r_in.1, r_out.1, r_out.2)
  else
    let r_in := env.GetDoubleArrayElements w j_in
    let r_out := env.GetDoubleArrayElements r_in.2 j_out
    (r_in.1, r_out.1, r_out.2)

/-- The block `// unlock arrays` of both entry points: `in` is released first, then `out`, both
with mode `0`. -/
def unlock_arrays (cfg : Settings) (w : World) (j_in : jdoubleArray) (in_ : Ptr)
    (j_out : jdoubleArray) (out : Ptr) : World :=
  if cfg.USE_GET_PRIMITIVE_ARRAY_CRITIAL then
    JNIEnv.ReleasePrimitiveArrayCritical (JNIEnv.ReleasePrimitiveArrayCritical w j_in in_ 0)
      j_out out 0
  else
    JNIEnv.ReleaseDoubleArrayElements (JNIEnv.ReleaseDoubleArrayElements w j_in in_ 0)
      j_out out 0

/-! ## Calls into the FFTW library -/

/-- A call of the native `fftw_plan_guru_dft`: its answer and the memory it leaves are the
library's, and the call is recorded with the arguments it was made with. -/
def fftw_plan_guru_dft (lib : Fftw) (w : World) (rank : Int) (dims : IodimArray)
    (howmany_rank : Int) (howmany_dims : IodimArray) (in_ out : Ptr) (sign flags : Int) :
    fftw_plan × World :=
  let r := lib.fftw_plan_guru_dft w rank dims howmany_rank howmany_dims in_ out sign flags
  (r.1,
    { w with
      store := r.2,
      trace := w.trace ++
        [Event.fftw_plan_guru_dft rank dims howmany_rank howmany_dims in_ out sign flags] })

/-- A call of the native `fftw_execute_dft`. -/
def fftw_execute_dft (lib : Fftw) (w : World) (p : fftw_plan) (in_ out : Ptr) : World :=
  { w with
    store := lib.fftw_execute_dft w p in_ out,
    trace := w.trace ++ [Event.fftw_execute_dft p in_ out] }

/-- A call of the native `fftw_execute_dft_r2c`. -/
def fftw_execute_dft_r2c (lib : Fftw) (w : World) (p : fftw_plan) (in_ out : Ptr) : World :=
  { w with
    store := lib.fftw_execute_dft_r2c w p in_ out,
    trace := w.trace ++ [Event.fftw_execute_dft_r2c p in_ out] }

/-- A call of the native `fftw_execute_dft_c2r`. -/
def fftw_execute_dft_c2r (lib : Fftw) (w : World) (p : fftw_plan) (in_ out : Ptr) : World :=
  { w with
    store := lib.fftw_execute_dft_c2r w p in_ out,
    trace := w.trace ++ [Event.fftw_execute_dft_c2r p in_ out] }

/-- A call of the native `fftw_destroy_plan`. -/
def fftw_destroy_plan (w : World) (p : fftw_plan) : World :=
  { w with trace := w.trace ++ [Event.fftw_destroy_plan p] }

/-- A call of the native `fftw_plan_with_nthreads`. -/
def fftw_plan_with_nthreads (w : World) (nthreads : Int) : World :=
  { w with trace := w.trace ++ [Event.fftw_plan_with_nthreads nthreads] }

/-- A call of the native `fftw_init_threads`: the library's answer and the world after it. -/
def fftw_init_threads (lib : Fftw) (w : World) : Int × World :=
  (lib.fftw_init_threads w, { w with trace := w.trace ++ [Event.fftw_init_threads] })

/-! ## TOOLS -/

/-- Function `get_iodim`, called with `dim = &dims[i]`: the fields `n`, `is`, `os`, read by name
from the Java object, are written through `dim`.  The function is declared `static int` and its
body ends after the third write without a `return` statement, so every call that gets that far
runs into undefined behaviour; no path returns a value. -/
def get_iodim (j_dim : jobject) (dims : IodimArray) (i : Nat) :
    Except Fault (Int × IodimArray) :=
  if i < dims.length then
    .error (Fault.missing_return
      (dims.set i (some
        { n := j_dim.GetIntField (GetFieldID "n" "I"),
          is := j_dim.GetIntField (GetFieldID "is" "I"),
          os := j_dim.GetIntField (GetFieldID "os" "I") })))
  else
    .error (Fault.write_past_end i dims.length)

/-- The loop `for (int i=0; i<size; ++i)` of `get_iodim_array`, entered at index `i` with the
elements `j_dims[i], j_dims[i+1], ...` still to visit.  Each round calls `get_iodim` on
`&dims[i]` and discards its result; the index is not compared with the capacity of `dims`. -/
def get_iodim_array_loop : List jobject → Nat → IodimArray → Except Fault IodimArray
  | [], _, dims => .ok dims
  | j_dim :: rest, i, dims =>
    match get_iodim j_dim dims i with
    | .ok r => get_iodim_array_loop rest (i + 1) r.2
    | .error f => .error f

/-- Function `get_iodim_array`: copies the descriptors into `dims` and returns their number. -/
def get_iodim_array (j_dims : List jobject) (dims : IodimArray) :
    Except Fault (Int × IodimArray) :=
  let size : Int := j_dims.length
  match get_iodim_array_loop j_dims 0 dims with
  | .ok dims1 => .ok (size, dims1)
  | .error f => .error f

/-! ## The entry points -/

/-- Entry point `fftw_plan_guru_dft` (the spec's `create_plan`). -/
def Java_uni_hamburg_yamms_math_fft_FFT_1fftw3Impl_fftw_1plan_1guru_1dft
    (cfg : Settings) (hdr : uni_hamburg_yamms_math_fft_FFT_fftw3Impl) (env : JNIEnv) (lib : Fftw)
    (w : World) (j_transform_dims j_loop_dims : List jobject) (j_in j_out : jdoubleArray)
    (j_mode j_flags : jint) : Except Fault (jlong × World) :=
  let mode := j_mode
  let flags := j_flags
  match get_iodim_array j_transform_dims (List.replicate MAX_RANK none) with
  | .error f => .error f
  | .ok (transform_rank, transform_dims) =>
    match get_iodim_array j_loop_dims (List.replicate MAX_RANK none) with
    | .error f => .error f
    | .ok (loop_rank, loop_dims) =>
      let locked := lock_arrays cfg env w j_in j_out
      let in_ := locked.1
      let out := locked.2.1
      let planned : fftw_plan × World :=
        if mode = hdr.MODE_C2C_FORW then
          fftw_plan_guru_dft lib locked.2.2 transform_rank transform_dims loop_rank loop_dims
            in_ out FFTW_FORWARD flags
        else if mode = hdr.MODE_C2C_BACKW then
          fftw_plan_guru_dft lib locked.2.2 transform_rank transform_dims loop_rank loop_dims
            in_ out FFTW_BACKWARD flags
        else if mode = hdr.MODE_R2C then (0, locked.2.2)
        else if mode = hdr.MODE_C2R then (0, locked.2.2)
        else (0, locked.2.2)
      let plan := planned.1
      let w3 := unlock_arrays cfg planned.2 j_in in_ j_out out
      if plan ≠ 0 then .ok (long_of_plan plan, w3) else .ok (0, w3)

/-- Entry point `fftw_execute_dft` (the spec's `execute`). -/
def Java_uni_hamburg_yamms_math_fft_FFT_1fftw3Impl_fftw_1execute_1dft
    (cfg : Settings) (hdr : uni_hamburg_yamms_math_fft_FFT_fftw3Impl) (env : JNIEnv) (lib : Fftw)
    (w : World) (j_plan : jlong) (j_in j_out : jdoubleArray) (mode : jint) : World :=
  let locked := lock_arrays cfg env w j_in j_out
  let in_ := locked.1
  let out := locked.2.1
  let plan := plan_of_long j_plan
  let w2 : World :=
    if mode = hdr.MODE_C2C_FORW ∨ mode = hdr.MODE_C2C_BACKW then
      fftw_execute_dft lib locked.2.2 plan in_ out
    else if mode = hdr.MODE_R2C then fftw_execute_dft_r2c lib locked.2.2 plan in_ out
    else if mode = hdr.MODE_C2R then fftw_execute_dft_c2r lib locked.2.2 plan in_ out
    else locked.2.2
  unlock_arrays cfg w2 j_in in_ j_out out

/-- Entry point `fftw_destroy_plan` (the spec's `destroy_plan`). -/
def Java_uni_hamburg_yamms_math_fft_FFT_1fftw3Impl_fftw_1destroy_1plan
    (w : World) (j_plan : jlong) : World :=
  if j_plan ≠ 0 then
    let plan := plan_of_long j_plan
    fftw_destroy_plan w plan
  else w

/-- Entry point `fftw_plan_with_nthreads` (the spec's `configure_threads`). -/
def Java_uni_hamburg_yamms_math_fft_FFT_1fftw3Impl_fftw_1plan_1with_1nthreads
    (cfg : Settings) (w : World) (j_num_threads : jint) : World :=
  if cfg.USE_FFTW_THREADS then
    let num_threads := j_num_threads
    fftw_plan_with_nthreads w num_threads
  else w

/-- Entry point `fftw_initialize` (the spec's status call). -/
def Java_uni_hamburg_yamms_math_fft_FFT_1fftw3Impl_fftw_1initialize
    (cfg : Settings) (lib : Fftw) (w : World) : jint × World :=
  if cfg.USE_FFTW_THREADS then
    let r := fftw_init_threads lib w
    let ok := r.1
    if ok = 0 then (-1, r.2) else (0, r.2)
  else (0, w)

/-! ## Sample data used to evaluate the embedding -/

/-- The Java object `Dimension(n, is, os)`. -/
def Dimension (n is os : Int) : jobject :=
  { GetIntField := fun f => if f = "n" then n else if f = "is" then is else if f = "os" then os else 0 }

/-- Sample values of the four mode constants. -/
def hdr0 : uni_hamburg_yamms_math_fft_FFT_fftw3Impl :=
  { MODE_C2C_FORW := 0, MODE_C2C_BACKW := 1, MODE_R2C := 2, MODE_C2R := 3 }

/-- A world with two Java arrays: array `0` holds an impulse of four complex samples, array `1`
holds eight zeros. -/
def w0 : World :=
  { store := fun p =>
      match p with
      | Ptr.pinned 0 => [1, 0, 0, 0, 0, 0, 0, 0]
      | Ptr.pinned 1 => [0, 0, 0, 0, 0, 0, 0, 0]
      | _ => [],
    nextCopy := 0,
    trace := [] }

/-- A JVM that always copies. -/
def jvmCopy : JNIEnv := { isCopy := fun _ _ => true }

/-- A JVM that always pins. -/
def jvmPin : JNIEnv := { isCopy := fun _ _ => false }

/-- A library whose planner answers the address `4096` and, like a measuring planner, overwrites
the first complex element of the `out` block it is given with `7, 7`; its execute calls write `9`
into the first double of that block; the start of its thread backend fails. -/
def lib0 : Fftw :=
  { fftw_plan_guru_dft := fun w _ _ _ _ _ out _ _ =>
      (4096, Function.update w.store out (7 :: 7 :: (w.store out).drop 2)),
    fftw_execute_dft := fun w _ _ out => Function.update w.store out (9 :: (w.store out).drop 1),
    fftw_execute_dft_r2c := fun w _ _ out =>
      Function.update w.store out (9 :: (w.store out).drop 1),
    fftw_execute_dft_c2r := fun w _ _ out =>
      Function.update w.store out (9 :: (w.store out).drop 1),
    fftw_init_threads := fun _ => 0 }

/-! ## Vocabulary of the statements -/

/-- The event of obtaining the view `p` of `array` in the given build. -/
def acquired (cfg : Settings) (array : jdoubleArray) (p : Ptr) : Event :=
  if cfg.USE_GET_PRIMITIVE_ARRAY_CRITIAL then Event.GetPrimitiveArrayCritical array p
  else Event.GetDoubleArrayElements array p

/-- The event of releasing the view `p` of `array` with mode `0` in the given build. -/
def released (cfg : Settings) (array : jdoubleArray) (p : Ptr) : Event :=
  if cfg.USE_GET_PRIMITIVE_ARRAY_CRITIAL then Event.ReleasePrimitiveArrayCritical array p 0
  else Event.ReleaseDoubleArrayElements array p 0

/-! ## Lemmas on the tools -/

/-- No call of `get_iodim` returns. -/
theorem get_iodim_never_returns (j_dim : jobject) (dims : IodimArray) (i : Nat)
    (r : Int × IodimArray) : get_iodim j_dim dims i ≠ .ok r := by
  unfold get_iodim
  split <;> simp

/-- The copy of the empty descriptor sequence returns `0` and writes nothing. -/
theorem get_iodim_array_nil (dims : IodimArray) : get_iodim_array [] dims = .ok (0, dims) := by
  simp [get_iodim_array, get_iodim_array_loop]

/-- The copy of a non-empty descriptor sequence into a non-empty array stops in its first round:
record `0` is written, then `get_iodim` ends without a `return`. -/
theorem get_iodim_array_cons (j_dim : jobject) (rest : List jobject) (dims : IodimArray)
    (h : 0 < dims.length) :
    get_iodim_array (j_dim :: rest) dims =
      .error (Fault.missing_return
        (dims.set 0 (some
          { n := j_dim.GetIntField "n", is := j_dim.GetIntField "is",
            os := j_dim.GetIntField "os" }))) := by
  simp [get_iodim_array, get_iodim_array_loop, get_iodim, h, GetFieldID]

/-- The copy returns only for the empty descriptor sequence. -/
theorem get_iodim_array_returns (j_dims : List jobject) (dims : IodimArray)
    (r : Int × IodimArray) (h : get_iodim_array j_dims dims = .ok r) : j_dims = [] := by
  cases j_dims with
  | nil => rfl
  | cons d rest =>
    exfalso
    unfold get_iodim_array at h
    simp only [get_iodim_array_loop] at h
    cases hg : get_iodim d dims 0 with
    | ok x => exact get_iodim_never_returns d dims 0 x hg
    | error f => rw [hg] at h; simp at h

/-! ## Lemmas on the pointer casts -/

theorem long_of_plan_zero : long_of_plan 0 = 0 := by
  simp [long_of_plan]

theorem long_of_plan_eq_zero_iff (plan : Nat) (hlt : plan < 2 ^ 64) :
    long_of_plan plan = 0 ↔ plan = 0 := by
  unfold long_of_plan
  norm_num at hlt ⊢
  split <;> omega

theorem plan_of_long_lt (j_plan : Int) : plan_of_long j_plan < 2 ^ 64 := by
  unfold plan_of_long
  norm_num
  omega

theorem long_of_plan_of_long (j_plan : Int) (hlo : -2 ^ 63 ≤ j_plan) (hhi : j_plan < 2 ^ 63) :
    long_of_plan (plan_of_long j_plan) = j_plan := by
  unfold long_of_plan plan_of_long
  norm_num at hlo hhi ⊢
  split <;> omega

/-! ## Lemmas on the buffer views -/

theorem acquire_spec (env : JNIEnv) (w : World) (a : jdoubleArray)
    (ev : jdoubleArray → Ptr → Event) :
    (env.acquire w a ev).2.trace = w.trace ++ [ev a (env.acquire w a ev).1] ∧
    ((env.acquire w a ev).1 = Ptr.pinned a ∧ (env.acquire w a ev).2.store = w.store ∨
      ∃ k, (env.acquire w a ev).1 = Ptr.copy k ∧ k = w.nextCopy ∧
        (env.acquire w a ev).2.nextCopy = k + 1 ∧
        (env.acquire w a ev).2.store = Function.update w.store (Ptr.copy k)
          (w.store (Ptr.pinned a))) ∧
    w.nextCopy ≤ (env.acquire w a ev).2.nextCopy := by
  unfold JNIEnv.acquire
  split <;> simp

theorem acquire_twice (env : JNIEnv) (w : World) (a b : jdoubleArray)
    (ev : jdoubleArray → Ptr → Event) (p q : Ptr) (w1 : World)
    (h : ((env.acquire w a ev).1, (env.acquire (env.acquire w a ev).2 b ev).1,
      (env.acquire (env.acquire w a ev).2 b ev).2) = (p, q, w1)) :
    w1.trace = w.trace ++ [ev a p, ev b q] ∧
    (p = Ptr.pinned a ∨ ∃ k, p = Ptr.copy k) ∧ (q = Ptr.pinned b ∨ ∃ k, q = Ptr.copy k) ∧
    (∀ c, w1.store (Ptr.pinned c) = w.store (Ptr.pinned c)) ∧
    w1.store p = w.store (Ptr.pinned a) ∧ w1.store q = w.store (Ptr.pinned b) := by
  obtain ⟨t1, s1, -⟩ := acquire_spec env w a ev
  obtain ⟨t2, s2, -⟩ := acquire_spec env (env.acquire w a ev).2 b ev
  simp only [Prod.mk.injEq] at h
  obtain ⟨hp, hq, hw⟩ := h
  rw [hp] at t1 s1
  rw [hq, hw] at t2 s2
  refine ⟨by rw [t2, t1]; simp, ?_, ?_, ?_, ?_, ?_⟩
  · rcases s1 with ⟨e, -⟩ | ⟨k, e, -⟩
    · exact Or.inl e
    · exact Or.inr ⟨k, e⟩
  · rcases s2 with ⟨e, -⟩ | ⟨k, e, -⟩
    · exact Or.inl e
    · exact Or.inr ⟨k, e⟩
  · intro c
    rcases s1 with ⟨-, e1⟩ | ⟨k, -, -, -, e1⟩ <;> rcases s2 with ⟨-, e2⟩ | ⟨k2, -, -, -, e2⟩ <;>
      simp [e1, e2, Function.update]
  · rcases s1 with ⟨ep, e1⟩ | ⟨k, ep, hk, hn, e1⟩ <;>
      rcases s2 with ⟨-, e2⟩ | ⟨k2, -, hk2, -, e2⟩
    · simp [e1, e2, ep]
    · simp [e1, e2, ep, Function.update]
    · simp [e1, e2, ep, Function.update]
    · have hne : k ≠ k2 := by omega
      simp [e1, e2, ep, Function.update, hne]
  · rcases s1 with ⟨-, e1⟩ | ⟨k, -, -, -, e1⟩ <;>
      rcases s2 with ⟨eq, e2⟩ | ⟨k2, eq, -, -, e2⟩ <;>
      simp [e1, e2, eq, Function.update]

theorem lock_arrays_spec (cfg : Settings) (env : JNIEnv) (w : World) (a b : jdoubleArray)
    (p q : Ptr) (w1 : World) (h : lock_arrays cfg env w a b = (p, q, w1)) :
    w1.trace = w.trace ++ [acquired cfg a p, acquired cfg b q] ∧
    (p = Ptr.pinned a ∨ ∃ k, p = Ptr.copy k) ∧ (q = Ptr.pinned b ∨ ∃ k, q = Ptr.copy k) ∧
    (∀ c, w1.store (Ptr.pinned c) = w.store (Ptr.pinned c)) ∧
    w1.store p = w.store (Ptr.pinned a) ∧ w1.store q = w.store (Ptr.pinned b) := by
  unfold lock_arrays JNIEnv.GetPrimitiveArrayCritical JNIEnv.GetDoubleArrayElements at h
  unfold acquired
  cases hc : cfg.USE_GET_PRIMITIVE_ARRAY_CRITIAL
  · rw [hc] at h
    simpa using acquire_twice env w a b Event.GetDoubleArrayElements p q w1 (by simpa using h)
  · rw [hc] at h
    simpa using acquire_twice env w a b Event.GetPrimitiveArrayCritical p q w1 (by simpa using h)

theorem unlock_arrays_trace (cfg : Settings) (w : World) (a b : jdoubleArray) (p q : Ptr) :
    (unlock_arrays cfg w a p b q).trace = w.trace ++ [released cfg a p, released cfg b q] := by
  unfold unlock_arrays JNIEnv.ReleasePrimitiveArrayCritical JNIEnv.ReleaseDoubleArrayElements
    JNIEnv.release released
  cases cfg.USE_GET_PRIMITIVE_ARRAY_CRITIAL <;> cases p <;> cases q <;> simp [JNI_ABORT]

/-- Releasing two views that hold what their arrays hold changes no Java array. -/
theorem unlock_arrays_idle (cfg : Settings) (w : World) (a b : jdoubleArray) (p q : Ptr)
    (hp : p = Ptr.pinned a ∨ ∃ k, p = Ptr.copy k) (hq : q = Ptr.pinned b ∨ ∃ k, q = Ptr.copy k)
    (h1 : w.store p = w.store (Ptr.pinned a)) (h2 : w.store q = w.store (Ptr.pinned b))
    (c : jdoubleArray) :
    (unlock_arrays cfg w a p b q).store (Ptr.pinned c) = w.store (Ptr.pinned c) := by
  unfold unlock_arrays JNIEnv.ReleasePrimitiveArrayCritical JNIEnv.ReleaseDoubleArrayElements
    JNIEnv.release
  rcases hp with rfl | ⟨k, rfl⟩ <;> rcases hq with rfl | ⟨k2, rfl⟩ <;>
    cases cfg.USE_GET_PRIMITIVE_ARRAY_CRITIAL <;>
    simp [JNI_ABORT, Function.update] <;>
    (try split) <;> (try split) <;> simp_all

/-- Releasing the views of two different arrays with mode `0` leaves in each array what its view
holds, and leaves every other array alone. -/
theorem unlock_arrays_commit (cfg : Settings) (w : World) (a b : jdoubleArray) (p q : Ptr)
    (hab : a ≠ b)
    (hp : p = Ptr.pinned a ∨ ∃ k, p = Ptr.copy k) (hq : q = Ptr.pinned b ∨ ∃ k, q = Ptr.copy k) :
    (unlock_arrays cfg w a p b q).store (Ptr.pinned a) = w.store p ∧
    (unlock_arrays cfg w a p b q).store (Ptr.pinned b) = w.store q ∧
    ∀ c, c ≠ a → c ≠ b → (unlock_arrays cfg w a p b q).store (Ptr.pinned c) =
      w.store (Ptr.pinned c) := by
  unfold unlock_arrays JNIEnv.ReleasePrimitiveArrayCritical JNIEnv.ReleaseDoubleArrayElements
    JNIEnv.release
  have hba : b ≠ a := fun e => hab e.symm
  rcases hp with rfl | ⟨k, rfl⟩ <;> rcases hq with rfl | ⟨k2, rfl⟩ <;>
    cases cfg.USE_GET_PRIMITIVE_ARRAY_CRITIAL <;>
    simp [JNI_ABORT, Function.update, hab, hba] <;>
    intro c hca hcb <;> simp [hca, hcb]

theorem heldViews_bracket (cfg : Settings) (a b : jdoubleArray) (p q : Ptr) (mid : List Event)
    (hmid : ∀ e ∈ mid, e.isFftw = true) :
    heldViews ([acquired cfg a p, acquired cfg b q] ++ mid ++
      [released cfg a p, released cfg b q]) = [] := by
  have hfold : ∀ (l : List Event) (v : List (jdoubleArray × Ptr)),
      (∀ e ∈ l, e.isFftw = true) → l.foldl Event.held v = v := by
    intro l
    induction l with
    | nil => intro v _; rfl
    | cons e t ih =>
      intro v h
      have he : e.isFftw = true := h e (List.mem_cons_self _ _)
      have hv : Event.held v e = v := by
        cases e <;> simp [Event.isFftw, Event.held] at he ⊢
      rw [List.foldl_cons, hv]
      exact ih v (fun x hx => h x (List.mem_cons_of_mem _ hx))
  unfold heldViews
  rw [List.foldl_append, List.foldl_append, hfold mid _ hmid]
  unfold acquired released
  cases cfg.USE_GET_PRIMITIVE_ARRAY_CRITIAL <;>
    by_cases h : (b, q) = (a, p) <;>
    simp [Event.held, JNI_COMMIT, List.erase_cons, h]

/-! ## Lemmas on plan creation -/

/-- With both descriptor sequences empty, plan creation runs through: the value of the call in
terms of the outcome of its `switch`. -/
theorem create_plan_fits (cfg : Settings) (hdr : uni_hamburg_yamms_math_fft_FFT_fftw3Impl)
    (env : JNIEnv) (lib : Fftw) (w : World) (j_in j_out : jdoubleArray) (j_mode j_flags : jint)
    (in_ out : Ptr) (w1 : World)
    (hlock : lock_arrays cfg env w j_in j_out = (in_, out, w1)) :
    ∃ planned : fftw_plan × World,
      planned =
        (if j_mode = hdr.MODE_C2C_FORW then
          fftw_plan_guru_dft lib w1 0 (List.replicate MAX_RANK none) 0
            (List.replicate MAX_RANK none) in_ out FFTW_FORWARD j_flags
        else if j_mode = hdr.MODE_C2C_BACKW then
          fftw_plan_guru_dft lib w1 0 (List.replicate MAX_RANK none) 0
            (List.replicate MAX_RANK none) in_ out FFTW_BACKWARD j_flags
        else (0, w1)) ∧
      Java_uni_hamburg_yamms_math_fft_FFT_1fftw3Impl_fftw_1plan_1guru_1dft cfg hdr env lib w
          [] [] j_in j_out j_mode j_flags =
        .ok (long_of_plan planned.1, unlock_arrays cfg planned.2 j_in in_ j_out out) := by
  refine ⟨_, rfl, ?_⟩
  unfold Java_uni_hamburg_yamms_math_fft_FFT_1fftw3Impl_fftw_1plan_1guru_1dft
  rw [get_iodim_array_nil]
  simp only [hlock]
  by_cases h1 : j_mode = hdr.MODE_C2C_FORW
  · simp only [h1, if_true]
    split
    · rfl
    · rename_i h0
      simp only [ne_eq, Decidable.not_not] at h0
      rw [h0, long_of_plan_zero]
  · simp only [h1, if_false]
    by_cases h2 : j_mode = hdr.MODE_C2C_BACKW
    · simp only [h2, if_true]
      split
      · rfl
      · rename_i h0
        simp only [ne_eq, Decidable.not_not] at h0
        rw [h0, long_of_plan_zero]
    · simp [h2, long_of_plan_zero]

/-- A call of plan creation that returns had both descriptor sequences empty. -/
theorem create_plan_returns (cfg : Settings) (hdr : uni_hamburg_yamms_math_fft_FFT_fftw3Impl)
    (env : JNIEnv) (lib : Fftw) (w : World) (j_transform_dims j_loop_dims : List jobject)
    (j_in j_out : jdoubleArray) (j_mode j_flags : jint) (x : jlong × World)
    (h : Java_uni_hamburg_yamms_math_fft_FFT_1fftw3Impl_fftw_1plan_1guru_1dft cfg hdr env lib w
        j_transform_dims j_loop_dims j_in j_out j_mode j_flags = .ok x) :
    j_transform_dims = [] ∧ j_loop_dims = [] := by
  unfold Java_uni_hamburg_yamms_math_fft_FFT_1fftw3Impl_fftw_1plan_1guru_1dft at h
  cases ht : get_iodim_array j_transform_dims (List.replicate MAX_RANK none) with
  | error f => rw [ht] at h; simp at h
  | ok rt =>
    have e1 := get_iodim_array_returns _ _ _ ht
    rw [ht] at h
    simp only [] at h
    cases hl : get_iodim_array j_loop_dims (List.replicate MAX_RANK none) with
    | error f => rw [hl] at h; simp at h
    | ok rl => exact ⟨e1, get_iodim_array_returns _ _ _ hl⟩

/-- Plan creation with a non-empty transform sequence stops in the first round of the first copy
loop, before any buffer is obtained. -/
theorem create_plan_transform_nonempty (cfg : Settings)
    (hdr : uni_hamburg_yamms_math_fft_FFT_fftw3Impl) (env : JNIEnv) (lib : Fftw) (w : World)
    (j_dim : jobject) (rest j_loop_dims : List jobject) (j_in j_out : jdoubleArray)
    (j_mode j_flags : jint) :
    Java_uni_hamburg_yamms_math_fft_FFT_1fftw3Impl_fftw_1plan_1guru_1dft cfg hdr env lib w
        (j_dim :: rest) j_loop_dims j_in j_out j_mode j_flags =
      .error (Fault.missing_return
        ((List.replicate MAX_RANK none).set 0 (some
          { n := j_dim.GetIntField "n", is := j_dim.GetIntField "is",
            os := j_dim.GetIntField "os" }))) := by
  unfold Java_uni_hamburg_yamms_math_fft_FFT_1fftw3Impl_fftw_1plan_1guru_1dft
  rw [get_iodim_array_cons j_dim rest (List.replicate MAX_RANK none) (by simp [MAX_RANK])]

/-- Plan creation in a mode that is neither complex-to-complex constant, with both descriptor
sequences empty: the views are obtained and released, nothing else happens, and the handle is
zero. -/
theorem create_plan_idle (cfg : Settings) (hdr : uni_hamburg_yamms_math_fft_FFT_fftw3Impl)
    (env : JNIEnv) (lib : Fftw) (w : World) (j_in j_out : jdoubleArray) (j_mode j_flags : jint)
    (in_ out : Ptr) (w1 : World)
    (hlock : lock_arrays cfg env w j_in j_out = (in_, out, w1))
    (h1 : j_mode ≠ hdr.MODE_C2C_FORW) (h2 : j_mode ≠ hdr.MODE_C2C_BACKW) :
    Java_uni_hamburg_yamms_math_fft_FFT_1fftw3Impl_fftw_1plan_1guru_1dft cfg hdr env lib w
        [] [] j_in j_out j_mode j_flags =
      .ok (0, unlock_arrays cfg w1 j_in in_ j_out out) := by
  obtain ⟨planned, hp, hr⟩ := create_plan_fits cfg hdr env lib w j_in j_out j_mode j_flags in_
    out w1 hlock
  rw [if_neg h1, if_neg h2] at hp
  rw [hr, hp, long_of_plan_zero]

/-- Plan creation in a complex-to-complex mode, with both descriptor sequences empty: one planner
call between obtaining and releasing the views; the handle is the planner's answer. -/
theorem create_plan_c2c (cfg : Settings) (hdr : uni_hamburg_yamms_math_fft_FFT_fftw3Impl)
    (env : JNIEnv) (lib : Fftw) (w : World) (j_in j_out : jdoubleArray) (j_mode j_flags : jint)
    (in_ out : Ptr) (w1 : World) (sign : Int)
    (hlock : lock_arrays cfg env w j_in j_out = (in_, out, w1))
    (hd : hdr.MODE_C2C_FORW ≠ hdr.MODE_C2C_BACKW)
    (hm : j_mode = hdr.MODE_C2C_FORW ∧ sign = FFTW_FORWARD ∨
      j_mode = hdr.MODE_C2C_BACKW ∧ sign = FFTW_BACKWARD) :
    Java_uni_hamburg_yamms_math_fft_FFT_1fftw3Impl_fftw_1plan_1guru_1dft cfg hdr env lib w
        [] [] j_in j_out j_mode j_flags =
      .ok (long_of_plan (fftw_plan_guru_dft lib w1 0 (List.replicate MAX_RANK none) 0
            (List.replicate MAX_RANK none) in_ out sign j_flags).1,
        unlock_arrays cfg (fftw_plan_guru_dft lib w1 0 (List.replicate MAX_RANK none) 0
            (List.replicate MAX_RANK none) in_ out sign j_flags).2 j_in in_ j_out out) := by
  obtain ⟨planned, hp, hr⟩ := create_plan_fits cfg hdr env lib w j_in j_out j_mode j_flags in_
    out w1 hlock
  rcases hm with ⟨hm, hs⟩ | ⟨hm, hs⟩
  · rw [if_pos hm] at hp
    rw [hr, hp, hs]
  · have hne : j_mode ≠ hdr.MODE_C2C_FORW := by rw [hm]; exact fun e => hd e.symm
    rw [if_neg hne, if_pos hm] at hp
    rw [hr, hp, hs]

/-! ## Lemmas on execution -/

/-- The events of one call of execute: the two views are obtained, the `switch` makes at most one
native call, the two views are released. -/
theorem execute_trace (cfg : Settings) (hdr : uni_hamburg_yamms_math_fft_FFT_fftw3Impl)
    (env : JNIEnv) (lib : Fftw) (w : World) (j_plan : jlong) (j_in j_out : jdoubleArray)
    (mode : jint) (in_ out : Ptr) (w1 : World)
    (hlock : lock_arrays cfg env w j_in j_out = (in_, out, w1)) :
    (Java_uni_hamburg_yamms_math_fft_FFT_1fftw3Impl_fftw_1execute_1dft cfg hdr env lib w j_plan
        j_in j_out mode).trace =
      w.trace ++ ([acquired cfg j_in in_, acquired cfg j_out out] ++
        (if mode = hdr.MODE_C2C_FORW ∨ mode = hdr.MODE_C2C_BACKW then
          [Event.fftw_execute_dft (plan_of_long j_plan) in_ out]
        else if mode = hdr.MODE_R2C then
          [Event.fftw_execute_dft_r2c (plan_of_long j_plan) in_ out]
        else if mode = hdr.MODE_C2R then
          [Event.fftw_execute_dft_c2r (plan_of_long j_plan) in_ out]
        else []) ++
        [released cfg j_in in_, released cfg j_out out]) := by
  obtain ⟨htr, -⟩ := lock_arrays_spec cfg env w j_in j_out in_ out w1 hlock
  unfold Java_uni_hamburg_yamms_math_fft_FFT_1fftw3Impl_fftw_1execute_1dft
  simp only [hlock]
  rw [unlock_arrays_trace]
  split
  · simp [fftw_execute_dft, htr]
  · split
    · simp [fftw_execute_dft_r2c, htr]
    · split
      · simp [fftw_execute_dft_c2r, htr]
      · simp [htr]

/-- In a mode outside the four constants execute only obtains and releases the views. -/
theorem execute_idle (cfg : Settings) (hdr : uni_hamburg_yamms_math_fft_FFT_fftw3Impl)
    (env : JNIEnv) (lib : Fftw) (w : World) (j_plan : jlong) (j_in j_out : jdoubleArray)
    (mode : jint) (in_ out : Ptr) (w1 : World)
    (hlock : lock_arrays cfg env w j_in j_out = (in_, out, w1))
    (hm : ¬ hdr.enumerated mode) :
    Java_uni_hamburg_yamms_math_fft_FFT_1fftw3Impl_fftw_1execute_1dft cfg hdr env lib w j_plan
        j_in j_out mode = unlock_arrays cfg w1 j_in in_ j_out out := by
  unfold uni_hamburg_yamms_math_fft_FFT_fftw3Impl.enumerated at hm
  simp only [not_or] at hm
  obtain ⟨h1, h2, h3, h4⟩ := hm
  unfold Java_uni_hamburg_yamms_math_fft_FFT_1fftw3Impl_fftw_1execute_1dft
  simp [hlock, h1, h2, h3, h4]

/-- Every call of execute, in every mode and with every library: the events are the view of
`in` obtained, the view of `out` obtained, at most one native FFTW call, the view of `in`
released, the view of `out` released; no view is held afterwards. -/
theorem execute_views_bracket_call (cfg : Settings)
    (hdr : uni_hamburg_yamms_math_fft_FFT_fftw3Impl) (env : JNIEnv) (lib : Fftw) (w : World)
    (j_plan : jlong) (j_in j_out : jdoubleArray) (mode : jint) (in_ out : Ptr) (w1 : World)
    (hlock : lock_arrays cfg env w j_in j_out = (in_, out, w1)) :
    ∃ mid : List Event,
      (Java_uni_hamburg_yamms_math_fft_FFT_1fftw3Impl_fftw_1execute_1dft cfg hdr env lib w
          j_plan j_in j_out mode).trace =
        w.trace ++ ([acquired cfg j_in in_, acquired cfg j_out out] ++ mid ++
          [released cfg j_in in_, released cfg j_out out]) ∧
      (∀ e ∈ mid, e.isFftw = true) ∧ mid.length ≤ 1 ∧
      heldViews ([acquired cfg j_in in_, acquired cfg j_out out] ++ mid ++
        [released cfg j_in in_, released cfg j_out out]) = [] := by
  refine ⟨_, execute_trace cfg hdr env lib w j_plan j_in j_out mode in_ out w1 hlock,
    ?_, ?_, ?_⟩
  · intro e he
    split at he <;> [skip; split at he <;> [skip; split at he]] <;>
      simp at he <;> rw [he] <;> rfl
  · split <;> [skip; split <;> [skip; split]] <;> simp
  · apply heldViews_bracket
    intro e he
    split at he <;> [skip; split at he <;> [skip; split at he]] <;>
      simp at he <;> rw [he] <;> rfl

/-- In a mode outside the four constants execute makes no native call and every Java array holds
afterwards what it held before. -/
theorem execute_unknown_mode_leaves_arrays (cfg : Settings)
    (hdr : uni_hamburg_yamms_math_fft_FFT_fftw3Impl) (env : JNIEnv) (lib : Fftw) (w : World)
    (j_plan : jlong) (j_in j_out : jdoubleArray) (mode : jint) (in_ out : Ptr) (w1 : World)
    (hm : ¬ hdr.enumerated mode)
    (hlock : lock_arrays cfg env w j_in j_out = (in_, out, w1)) :
    (Java_uni_hamburg_yamms_math_fft_FFT_1fftw3Impl_fftw_1execute_1dft cfg hdr env lib w
        j_plan j_in j_out mode).trace =
      w.trace ++ [acquired cfg j_in in_, acquired cfg j_out out,
        released cfg j_in in_, released cfg j_out out] ∧
    ∀ a, (Java_uni_hamburg_yamms_math_fft_FFT_1fftw3Impl_fftw_1execute_1dft cfg hdr env lib w
        j_plan j_in j_out mode).store (Ptr.pinned a) = w.store (Ptr.pinned a) := by
  obtain ⟨htr, hp, hq, hs, hsp, hsq⟩ := lock_arrays_spec cfg env w j_in j_out in_ out w1 hlock
  rw [execute_idle cfg hdr env lib w j_plan j_in j_out mode in_ out w1 hlock hm]
  constructor
  · rw [unlock_arrays_trace, htr]
    simp
  · intro a
    rw [unlock_arrays_idle cfg w1 j_in j_out in_ out hp hq (by rw [hsp, hs]) (by rw [hsq, hs]),
      hs]

/-! ## The claims -/

/-- C3: for each of the four mode constants execute makes exactly one native execute call, between
obtaining and releasing the two views, on the caller's handle and on the views of the caller's
`in` and `out` buffers: `fftw_execute_dft` for both complex-to-complex modes,
`fftw_execute_dft_r2c` for real-to-complex, `fftw_execute_dft_c2r` for complex-to-real.  The
handle is any integer (zero included): it is cast and passed on, never inspected. -/
theorem execute_dispatches_on_mode (cfg : Settings)
    (hdr : uni_hamburg_yamms_math_fft_FFT_fftw3Impl) (env : JNIEnv) (lib : Fftw) (w : World)
    (j_plan : Int) (j_in j_out : jdoubleArray) (mode : jint) (in_ out : Ptr) (w1 : World)
    (hd : hdr.distinct)
    (hlock : lock_arrays cfg env w j_in j_out = (in_, out, w1)) :
    (mode = hdr.MODE_C2C_FORW ∨ mode = hdr.MODE_C2C_BACKW →
      (Java_uni_hamburg_yamms_math_fft_FFT_1fftw3Impl_fftw_1execute_1dft cfg hdr env lib w
          j_plan j_in j_out mode).trace =
        w.trace ++ [acquired cfg j_in in_, acquired cfg j_out out,
          Event.fftw_execute_dft (plan_of_long j_plan) in_ out,
          released cfg j_in in_, released cfg j_out out]) ∧
    (mode = hdr.MODE_R2C →
      (Java_uni_hamburg_yamms_math_fft_FFT_1fftw3Impl_fftw_1execute_1dft cfg hdr env lib w
          j_plan j_in j_out mode).trace =
        w.trace ++ [acquired cfg j_in in_, acquired cfg j_out out,
          Event.fftw_execute_dft_r2c (plan_of_long j_plan) in_ out,
          released cfg j_in in_, released cfg j_out out]) ∧
    (mode = hdr.MODE_C2R →
      (Java_uni_hamburg_yamms_math_fft_FFT_1fftw3Impl_fftw_1execute_1dft cfg hdr env lib w
          j_plan j_in j_out mode).trace =
        w.trace ++ [acquired cfg j_in in_, acquired cfg j_out out,
          Event.fftw_execute_dft_c2r (plan_of_long j_plan) in_ out,
          released cfg j_in in_, released cfg j_out out]) ∧
    w1.store in_ = w.store (Ptr.pinned j_in) ∧ w1.store out = w.store (Ptr.pinned j_out) ∧
    (-2 ^ 63 ≤ j_plan → j_plan < 2 ^ 63 → long_of_plan (plan_of_long j_plan) = j_plan) := by
  obtain ⟨d1, d2, d3, d4, d5, d6⟩ := hd
  obtain ⟨-, -, -, -, hs1, hs2⟩ := lock_arrays_spec cfg env w j_in j_out in_ out w1 hlock
  have htr := execute_trace cfg hdr env lib w j_plan j_in j_out mode in_ out w1 hlock
  refine ⟨?_, ?_, ?_, hs1, hs2, long_of_plan_of_long j_plan⟩
  · intro hm
    rw [htr, if_pos hm]
    simp
  · intro hm
    have hn : ¬ (mode = hdr.MODE_C2C_FORW ∨ mode = hdr.MODE_C2C_BACKW) := by
      rw [hm]
      rintro (e | e)
      · exact d2 e.symm
      · exact d4 e.symm
    rw [htr, if_neg hn, if_pos hm]
    simp
  · intro hm
    have hn : ¬ (mode = hdr.MODE_C2C_FORW ∨ mode = hdr.MODE_C2C_BACKW) := by
      rw [hm]
      rintro (e | e)
      · exact d3 e.symm
      · exact d5 e.symm
    have hr : mode ≠ hdr.MODE_R2C := by
      rw [hm]
      exact fun e => d6 e.symm
    rw [htr, if_neg hn, if_neg hr, if_pos hm]
    simp

/-- C3, evaluated: a complex-to-real execution on the null handle still makes its native call. -/
theorem execute_dispatches_on_mode_witness :
    (Java_uni_hamburg_yamms_math_fft_FFT_1fftw3Impl_fftw_1execute_1dft settings_h hdr0 jvmCopy
        lib0 w0 0 0 1 3).trace =
      w0.trace ++ [acquired settings_h 0 (Ptr.copy 0), acquired settings_h 1 (Ptr.copy 1),
        Event.fftw_execute_dft_c2r (plan_of_long 0) (Ptr.copy 0) (Ptr.copy 1),
        released settings_h 0 (Ptr.copy 0), released settings_h 1 (Ptr.copy 1)] :=
  (execute_dispatches_on_mode settings_h hdr0 jvmCopy lib0 w0 0 0 1 3 (Ptr.copy 0) (Ptr.copy 1)
    _ (by decide) rfl).2.2.1 rfl

/-- C4: `destroy_plan` with handle `0` makes no native call (the world is left as it is); with a
non-zero handle it makes exactly one call of `fftw_destroy_plan`, on the pointer with the bits of
that handle. -/
theorem destroy_plan_skips_null (w : World) (j_plan : Int) :
    Java_uni_hamburg_yamms_math_fft_FFT_1fftw3Impl_fftw_1destroy_1plan w 0 = w ∧
    (j_plan ≠ 0 →
      (Java_uni_hamburg_yamms_math_fft_FFT_1fftw3Impl_fftw_1destroy_1plan w j_plan).trace =
        w.trace ++ [Event.fftw_destroy_plan (plan_of_long j_plan)] ∧
      (Java_uni_hamburg_yamms_math_fft_FFT_1fftw3Impl_fftw_1destroy_1plan w j_plan).store =
        w.store) ∧
    (-2 ^ 63 ≤ j_plan → j_plan < 2 ^ 63 → long_of_plan (plan_of_long j_plan) = j_plan) := by
  refine ⟨?_, ?_, long_of_plan_of_long j_plan⟩
  · simp [Java_uni_hamburg_yamms_math_fft_FFT_1fftw3Impl_fftw_1destroy_1plan]
  · intro h
    simp [Java_uni_hamburg_yamms_math_fft_FFT_1fftw3Impl_fftw_1destroy_1plan, h,
      fftw_destroy_plan]

/-- C4, evaluated: destroying the handle `4096`. -/
theorem destroy_plan_skips_null_witness :
    (Java_uni_hamburg_yamms_math_fft_FFT_1fftw3Impl_fftw_1destroy_1plan w0 4096).trace =
        w0.trace ++ [Event.fftw_destroy_plan (plan_of_long 4096)] ∧
    long_of_plan (plan_of_long 4096) = 4096 :=
  ⟨((destroy_plan_skips_null w0 4096).2.1 (by decide)).1,
    (destroy_plan_skips_null w0 4096).2.2 (by norm_num) (by norm_num)⟩

/-- C9: the status call returns only `0` or `-1`; it returns `-1` exactly when the build enables
threading and `fftw_init_threads` answers `0`; with threading enabled it makes that one native
call; in the build `settings.h` ships it makes no native call and returns `0`. -/
theorem initialize_status (cfg : Settings) (lib : Fftw) (w : World) :
    (( Java_uni_hamburg_yamms_math_fft_FFT_1fftw3Impl_fftw_1initialize cfg lib w).1 = 0 ∨
      ( Java_uni_hamburg_yamms_math_fft_FFT_1fftw3Impl_fftw_1initialize cfg lib w).1 = -1) ∧
    (( Java_uni_hamburg_yamms_math_fft_FFT_1fftw3Impl_fftw_1initialize cfg lib w).1 = -1 ↔
      cfg.USE_FFTW_THREADS = true ∧ lib.fftw_init_threads w = 0) ∧
    (cfg.USE_FFTW_THREADS = true →
      ( Java_uni_hamburg_yamms_math_fft_FFT_1fftw3Impl_fftw_1initialize cfg lib w).2.trace =
        w.trace ++ [Event.fftw_init_threads]) ∧
    (cfg.USE_FFTW_THREADS = false →
      Java_uni_hamburg_yamms_math_fft_FFT_1fftw3Impl_fftw_1initialize cfg lib w = (0, w)) ∧
    settings_h.USE_FFTW_THREADS = false := by
  unfold Java_uni_hamburg_yamms_math_fft_FFT_1fftw3Impl_fftw_1initialize fftw_init_threads
  cases hc : cfg.USE_FFTW_THREADS
  · simp [settings_h]
  · by_cases h0 : lib.fftw_init_threads w = 0 <;> simp [h0, settings_h]

/-- C9, evaluated: with threading enabled and a failing thread backend the status is `-1`; in the
shipped build it is `0` and the world is untouched. -/
theorem initialize_status_witness :
    ( Java_uni_hamburg_yamms_math_fft_FFT_1fftw3Impl_fftw_1initialize
        { USE_FFTW_THREADS := true, USE_GET_PRIMITIVE_ARRAY_CRITIAL := false } lib0 w0).1 = -1 ∧
    Java_uni_hamburg_yamms_math_fft_FFT_1fftw3Impl_fftw_1initialize settings_h lib0 w0 =
      (0, w0) :=
  ⟨(initialize_status { USE_FFTW_THREADS := true, USE_GET_PRIMITIVE_ARRAY_CRITIAL := false }
      lib0 w0).2.1.mpr ⟨rfl, rfl⟩,
    (initialize_status settings_h lib0 w0).2.2.2.1 rfl⟩

/-- C1, evaluated where the code departs from it: a forward `create_plan` over the one transform
dimension `(n, is, os) = (4, 1, 1)` and no loop dimension.  The claim has the planner invoked once
and its answer returned.  The code writes record `0` of `transform_dims` and then reaches the end
of `get_iodim`, which is declared `int` and returns nothing: the call stops there, before a buffer
is obtained and before the planner is called. -/
theorem create_plan_c2c_stops_in_get_iodim :
    Java_uni_hamburg_yamms_math_fft_FFT_1fftw3Impl_fftw_1plan_1guru_1dft settings_h hdr0 jvmCopy
        lib0 w0 [Dimension 4 1 1] [] 0 1 0 64 =
      .error (Fault.missing_return
        [some { n := 4, is := 1, os := 1 }, none, none, none, none, none, none, none]) := by
  rfl

/-- C2, evaluated where the code departs from it: a real-to-complex `create_plan` over one
transform dimension.  The claim has the call return the zero handle whatever the descriptor
sequences; the code stops at the end of `get_iodim` in the first round of the first copy loop and
returns nothing. -/
theorem create_plan_real_mode_stops_in_get_iodim :
    Java_uni_hamburg_yamms_math_fft_FFT_1fftw3Impl_fftw_1plan_1guru_1dft settings_h hdr0 jvmCopy
        lib0 w0 [Dimension 4 1 1] [] 0 1 2 64 =
      .error (Fault.missing_return
        [some { n := 4, is := 1, os := 1 }, none, none, none, none, none, none, none]) := by
  rfl

/-- C5, evaluated where the code departs from it: two descriptors copied into an array of eight
unwritten records.  The claim has `get_iodim_array` return `2` with records `0` and `1` filled.
The code fills record `0` with the fields of the first descriptor, read by name, and then reaches
the end of `get_iodim` without a `return`: nothing is returned and record `1` is never written. -/
theorem get_iodim_array_stops_in_first_round :
    get_iodim_array [Dimension 4 1 2, Dimension 5 6 7] (List.replicate MAX_RANK none) =
      .error (Fault.missing_return
        [some { n := 4, is := 1, os := 2 }, none, none, none, none, none, none, none]) := by
  rfl

/-- C6, evaluated where the code departs from it: with exactly eight transform dimensions the
claim has the call complete, but the code stops at the end of `get_iodim` in the first round; with
nine loop dimensions the first undefined step is that same missing `return`, in round `0`, not the
write at index `8`. -/
theorem create_plan_rank_eight_stops_in_get_iodim :
    Java_uni_hamburg_yamms_math_fft_FFT_1fftw3Impl_fftw_1plan_1guru_1dft settings_h hdr0 jvmCopy
        lib0 w0 (List.replicate 8 (Dimension 2 1 1)) [] 0 1 0 64 =
      .error (Fault.missing_return
        [some { n := 2, is := 1, os := 1 }, none, none, none, none, none, none, none]) ∧
    Java_uni_hamburg_yamms_math_fft_FFT_1fftw3Impl_fftw_1plan_1guru_1dft settings_h hdr0 jvmCopy
        lib0 w0 [] (List.replicate 9 (Dimension 2 1 1)) 0 1 0 64 =
      .error (Fault.missing_return
        [some { n := 2, is := 1, os := 1 }, none, none, none, none, none, none, none]) := by
  constructor <;> rfl

/-- C7, evaluated where the code departs from it: a backward `create_plan` with no transform
dimension and one loop dimension, on a JVM that pins.  The claim has each buffer obtained once and
released once in every call; the code stops at the end of `get_iodim` in the second copy loop,
which runs before the block that obtains the buffers, so neither buffer is obtained. -/
theorem create_plan_stops_before_buffers :
    Java_uni_hamburg_yamms_math_fft_FFT_1fftw3Impl_fftw_1plan_1guru_1dft settings_h hdr0 jvmPin
        lib0 w0 [] [Dimension 2 4 4] 0 1 1 64 =
      .error (Fault.missing_return
        [some { n := 2, is := 4, os := 4 }, none, none, none, none, none, none, none]) := by
  rfl

/-- C10, evaluated where the code departs from it: `create_plan` with mode `7`, which is none of
the sample constants `0, 1, 2, 3`, over two transform dimensions.  The claim has the call return
`0`; the code stops at the end of `get_iodim` in the first round and returns nothing. -/
theorem create_plan_unknown_mode_stops_in_get_iodim :
    ¬ hdr0.enumerated 7 ∧
    Java_uni_hamburg_yamms_math_fft_FFT_1fftw3Impl_fftw_1plan_1guru_1dft settings_h hdr0 jvmCopy
        lib0 w0 [Dimension 4 2 2, Dimension 2 1 1] [] 0 1 7 64 =
      .error (Fault.missing_return
        [some { n := 4, is := 2, os := 2 }, none, none, none, none, none, none, none]) := by
  exact ⟨by decide, rfl⟩

/-- C8, refuted as stated: with a JVM that hands out copies and a planner that writes into the
first complex element of the `out` block it is given, a forward `create_plan` (no dimensions,
flags `0`) returns with the first two doubles of the caller's `out` array changed from `0, 0` to
what the planner wrote: the release with mode `0` copies the view back. -/
theorem create_plan_commits_planner_writes :
    ∃ (r : jlong) (w3 : World),
      Java_uni_hamburg_yamms_math_fft_FFT_1fftw3Impl_fftw_1plan_1guru_1dft settings_h hdr0
          jvmCopy lib0 w0 [] [] 0 1 0 0 = .ok (r, w3) ∧
      w0.store (Ptr.pinned 1) = [0, 0, 0, 0, 0, 0, 0, 0] ∧
      w3.store (Ptr.pinned 1) = [7, 7, 0, 0, 0, 0, 0, 0] :=
  ⟨_, _, rfl, rfl, rfl⟩

/-- C8, amended: whenever `create_plan` returns, every Java array is as it was if the mode is
neither complex-to-complex constant (no planner call) or if the planner left memory as it found
it; otherwise, in a complex-to-complex mode, the two views are released with mode `0`, which
commits: for different `in` and `out` arrays, the `in` array ends with what the planner left in
the `in` view, the `out` array with what it left in the `out` view, every other array with what
the planner left in that array.  The call returns when both descriptor sequences are empty. -/
theorem create_plan_buffer_frame (cfg : Settings)
    (hdr : uni_hamburg_yamms_math_fft_FFT_fftw3Impl) (env : JNIEnv) (lib : Fftw) (w : World)
    (j_transform_dims j_loop_dims : List jobject) (j_in j_out : jdoubleArray)
    (j_mode j_flags : jint) (in_ out : Ptr) (w1 : World) (sign : Int) (plan : fftw_plan)
    (s2 : Store)
    (hlock : lock_arrays cfg env w j_in j_out = (in_, out, w1))
    (hplan : lib.fftw_plan_guru_dft w1 0 (List.replicate MAX_RANK none) 0
        (List.replicate MAX_RANK none) in_ out sign j_flags = (plan, s2)) :
    (j_transform_dims = [] → j_loop_dims = [] →
      ∃ (r : jlong) (w3 : World),
        Java_uni_hamburg_yamms_math_fft_FFT_1fftw3Impl_fftw_1plan_1guru_1dft cfg hdr env lib w
          j_transform_dims j_loop_dims j_in j_out j_mode j_flags = .ok (r, w3)) ∧
    ∀ (r : jlong) (w3 : World),
      Java_uni_hamburg_yamms_math_fft_FFT_1fftw3Impl_fftw_1plan_1guru_1dft cfg hdr env lib w
          j_transform_dims j_loop_dims j_in j_out j_mode j_flags = .ok (r, w3) →
      (j_mode ≠ hdr.MODE_C2C_FORW → j_mode ≠ hdr.MODE_C2C_BACKW →
        r = 0 ∧ ∀ a, w3.store (Ptr.pinned a) = w.store (Ptr.pinned a)) ∧
      (hdr.MODE_C2C_FORW ≠ hdr.MODE_C2C_BACKW →
        (j_mode = hdr.MODE_C2C_FORW ∧ sign = FFTW_FORWARD ∨
          j_mode = hdr.MODE_C2C_BACKW ∧ sign = FFTW_BACKWARD) →
        r = long_of_plan plan ∧
        (s2 = w1.store → ∀ a, w3.store (Ptr.pinned a) = w.store (Ptr.pinned a)) ∧
        (j_in ≠ j_out →
          w3.store (Ptr.pinned j_in) = s2 in_ ∧ w3.store (Ptr.pinned j_out) = s2 out ∧
          ∀ a, a ≠ j_in → a ≠ j_out → w3.store (Ptr.pinned a) = s2 (Ptr.pinned a))) := by
  obtain ⟨-, hp, hq, hs, hsp, hsq⟩ := lock_arrays_spec cfg env w j_in j_out in_ out w1 hlock
  constructor
  · intro ht hl
    subst ht hl
    obtain ⟨planned, -, hr⟩ := create_plan_fits cfg hdr env lib w j_in j_out j_mode j_flags in_
      out w1 hlock
    exact ⟨_, _, hr⟩
  · intro r w3 hrun
    obtain ⟨ht, hl⟩ := create_plan_returns cfg hdr env lib w j_transform_dims j_loop_dims j_in
      j_out j_mode j_flags _ hrun
    subst ht hl
    constructor
    · intro h1 h2
      rw [create_plan_idle cfg hdr env lib w j_in j_out j_mode j_flags in_ out w1 hlock h1 h2]
        at hrun
      simp only [Except.ok.injEq, Prod.mk.injEq] at hrun
      obtain ⟨hr, hw⟩ := hrun
      subst hr hw
      refine ⟨rfl, ?_⟩
      intro a
      rw [unlock_arrays_idle cfg w1 j_in j_out in_ out hp hq (by rw [hsp, hs])
        (by rw [hsq, hs]), hs]
    · intro hd hm
      have hc := create_plan_c2c cfg hdr env lib w j_in j_out j_mode j_flags in_ out w1 sign
        hlock hd hm
      generalize hg : fftw_plan_guru_dft lib w1 _ _ _ _ _ _ _ _ = g at hc
      simp only [fftw_plan_guru_dft, hplan] at hg
      subst hg
      rw [hc] at hrun
      simp only [Except.ok.injEq, Prod.mk.injEq] at hrun
      obtain ⟨hr, hw⟩ := hrun
      subst hr hw
      refine ⟨rfl, ?_, ?_⟩
      · intro hs2 a
        subst hs2
        rw [unlock_arrays_idle cfg _ j_in j_out in_ out hp hq (by simp [hsp, hs])
          (by simp [hsq, hs])]
        exact hs a
      · intro hne
        exact unlock_arrays_commit cfg _ j_in j_out in_ out hne hp hq

/-- C8 amended, evaluated on the sample world with no dimensions: the call returns; in the forward
mode the handle is the planner's and the arrays hold what the planner left in the views (the `in`
array as before, the `out` array with the planner's two writes); in the real-to-complex mode the
handle is `0` and every array is as before. -/
theorem create_plan_buffer_frame_witness :
    (∃ (r : jlong) (w3 : World),
      Java_uni_hamburg_yamms_math_fft_FFT_1fftw3Impl_fftw_1plan_1guru_1dft settings_h hdr0
        jvmCopy lib0 w0 [] [] 0 1 0 0 = .ok (r, w3)) ∧
    (∀ (r : jlong) (w3 : World),
      Java_uni_hamburg_yamms_math_fft_FFT_1fftw3Impl_fftw_1plan_1guru_1dft settings_h hdr0
        jvmCopy lib0 w0 [] [] 0 1 0 0 = .ok (r, w3) →
      r = long_of_plan 4096 ∧
      w3.store (Ptr.pinned 0) = [1, 0, 0, 0, 0, 0, 0, 0] ∧
      w3.store (Ptr.pinned 1) = [7, 7, 0, 0, 0, 0, 0, 0]) ∧
    (∀ (r : jlong) (w3 : World),
      Java_uni_hamburg_yamms_math_fft_FFT_1fftw3Impl_fftw_1plan_1guru_1dft settings_h hdr0
        jvmCopy lib0 w0 [] [] 0 1 2 0 = .ok (r, w3) →
      r = 0 ∧ ∀ a, w3.store (Ptr.pinned a) = w0.store (Ptr.pinned a)) :=
  ⟨(create_plan_buffer_frame settings_h hdr0 jvmCopy lib0 w0 [] [] 0 1 0 0 (Ptr.copy 0)
      (Ptr.copy 1) _ FFTW_FORWARD 4096 _ rfl rfl).1 rfl rfl,
    fun r w3 h =>
      ⟨(((create_plan_buffer_frame settings_h hdr0 jvmCopy lib0 w0 [] [] 0 1 0 0 (Ptr.copy 0)
          (Ptr.copy 1) _ FFTW_FORWARD 4096 _ rfl rfl).2 r w3 h).2 (by decide)
          (Or.inl ⟨rfl, rfl⟩)).1,
        ((((create_plan_buffer_frame settings_h hdr0 jvmCopy lib0 w0 [] [] 0 1 0 0 (Ptr.copy 0)
          (Ptr.copy 1) _ FFTW_FORWARD 4096 _ rfl rfl).2 r w3 h).2 (by decide)
          (Or.inl ⟨rfl, rfl⟩)).2.2 (by decide)).1,
        ((((create_plan_buffer_frame settings_h hdr0 jvmCopy lib0 w0 [] [] 0 1 0 0 (Ptr.copy 0)
          (Ptr.copy 1) _ FFTW_FORWARD 4096 _ rfl rfl).2 r w3 h).2 (by decide)
          (Or.inl ⟨rfl, rfl⟩)).2.2 (by decide)).2.1⟩,
    fun r w3 h =>
      ((create_plan_buffer_frame settings_h hdr0 jvmCopy lib0 w0 [] [] 0 1 2 0 (Ptr.copy 0)
        (Ptr.copy 1) _ FFTW_FORWARD 4096 _ rfl rfl).2 r w3 h).1 (by decide) (by decide)⟩

end Yamms
